import Mathlib

/-!
Shallow embedding of the trading-bot webhook pipeline (src/main.py) and
verification of the specification claims about it.

Numbers are modelled as exact rationals.  Python string splitting is
modelled on lists of characters.  Exchange and storage interactions are
modelled as explicit environments; a Python exception inside a modelled
try-block is an explicit error value.
-/

namespace TradingBot

/-- Round-half-even on an exact rational, the tie-breaking rule of
Python builtin round. -/
def roundHalfEven (x : ℚ) : ℤ :=
  let n := Int.floor x
  let frac := x - n
  if frac < 1/2 then n
  else if 1/2 < frac then n + 1
  else if n % 2 = 0 then n else n + 1

/-- Python round to 8 decimal places, as used in calculate_quantity. -/
def round8 (x : ℚ) : ℚ := (roundHalfEven (x * 10^8) : ℚ) / 10^8

/-- Default allocation fraction of calculate_quantity (main.py line 43). -/
def allocDefault : ℚ := 1/10

/-- Hardcoded exchange minimum in calculate_quantity (main.py line 47,
the comment there says it is the Binance minimum of 0.0001 BTC). -/
def binanceMin : ℚ := 1/10000

/-- calculate_quantity from main.py lines 43-50: quantity is
capital * alloc / price rounded to 8 places and floored at the
hardcoded 0.0001; a price of zero raises ZeroDivisionError, which the
except branch turns into a returned 0.0. -/
def calculate_quantity (capital price alloc : ℚ) : ℚ :=
  if price = 0 then 0
  else max (round8 (capital * alloc / price)) binanceMin

/-- Table of supported pairs per exchange, from map_symbol
(main.py lines 53-60). -/
def exchange_pairs (exchange : String) : List String :=
  if exchange = "binance" then ["BTCUSDT", "BTCUSDC"]
  else if exchange = "coinlion" then ["BTCUSDC"]
  else if exchange = "kraken" then ["BTCUSD", "BTCUSDC"]
  else if exchange = "bybit" then ["BTCUSDT", "BTCUSDC"]
  else if exchange = "kucoin" then ["BTCUSDT", "BTCUSDC"]
  else if exchange = "coinbase" then ["BTCUSD", "BTCUSDC"]
  else []

/-- map_symbol from main.py lines 52-61: the preferred pair when the
exchange supports it, otherwise the base symbol. -/
def map_symbol (exchange preferred_pair base_symbol : String) : String :=
  if (exchange_pairs exchange).contains preferred_pair then preferred_pair
  else base_symbol

/-- Splitting a character list at a separator, the list-level model of
Python str.split with a one-character separator. -/
def splitOnChar (sep : Char) : List Char → List (List Char)
  | [] => [[]]
  | c :: cs =>
    let r := splitOnChar sep cs
    if c = sep then [] :: r
    else
      match r with
      | [] => [[c]]
      | h :: t => (c :: h) :: t

/-- Python s.split(sep) for a one-character separator, on strings. -/
def pySplit (s : String) (sep : Char) : List String :=
  (splitOnChar sep s.data).map String.mk

/-- Python str.startswith: prefix test on the character lists. -/
def strStartsWith (s pre : String) : Bool :=
  pre.data.isPrefixOf s.data

/-- Exchange-side environment seen by validate_order: whether the
client construction getattr(ccxt, exchange)(...) succeeds (it runs
before the try block, so its AttributeError escapes to the caller),
whether the two network calls inside the try succeed, the per-symbol
market minimum (none models a KeyError on the symbol; some none models
a minimum of Python None), the free balance per currency (none models
an absent currency, which the code treats as 0), and whether the
finally-close succeeds (a raise there also escapes, after the except
branch has produced its value). -/
structure ExchangeEnv where
  client_ok : Bool
  load_markets_ok : Bool
  min_amount : String → Option (Option ℚ)
  fetch_balance_ok : Bool
  balance : String → Option ℚ
  close_ok : Bool

/-- Body of the try-block of validate_order (main.py lines 84-101).
A result of none is a Python exception escaping the body: load_markets
or fetch_balance failing, markets lacking the symbol, comparing against
a minimum of None, or the index error of symbol.split into index 1 when
the symbol has no slash. -/
def validate_order_body (env : ExchangeEnv) (symbol : String)
    (quantity price : ℚ) (action : String) : Option Bool :=
  if env.load_markets_ok = false then none
  else
    match env.min_amount symbol with
    | none => none
    | some none => none
    | some (some m) =>
      if quantity < m then some false
      else if env.fetch_balance_ok = false then none
      else
        match (pySplit symbol '/').get?
            (if strStartsWith action "Buy" then 1 else 0) with
        | none => none
        | some base_currency =>
          let available := (env.balance base_currency).getD 0
          let required :=
            if strStartsWith action "Buy" then quantity * price else quantity
          if available < required then some false else some true

/-- validate_order from main.py lines 82-106.  The except branch maps
every exception from the try body to False, but the function can still
raise to its caller (result none): the client construction at line 83
runs before the try, so an exchange string that is not a ccxt attribute
raises AttributeError out of the function, and the finally-close at
line 106 runs after the except and can raise as well. -/
def validate_order (env : ExchangeEnv) (symbol : String)
    (quantity price : ℚ) (action : String) : Option Bool :=
  if env.client_ok = false then none
  else if env.close_ok = false then none
  else some ((validate_order_body env symbol quantity price action).getD false)

/-- Order-level exchange calls that process_order can issue
(main.py lines 134-142). -/
inductive ExchangeCall
  | createLimitBuy (symbol : String) (quantity price : ℚ)
  | createLimitSell (symbol : String) (quantity price : ℚ)
  | cancelOpenOrders (symbol : String)
deriving DecidableEq

/-- Order-placement calls issued by one execution of process_order
(main.py lines 122-149): nothing when validation returns False or
raises (a raise from validate_order lands in the surrounding except
branch, which retries without placing an order), otherwise one call
selected by the action prefix; actions matching no branch place no
order.  The code reads no stored state before placing, so the trace
depends only on the job and the exchange environment. -/
def process_order_calls (env : ExchangeEnv) (symbol action : String)
    (price take_profit quantity : ℚ) : List ExchangeCall :=
  match validate_order env symbol quantity price action with
  | none => []
  | some false => []
  | some true =>
    if strStartsWith action "Buy Fib" then
      [.createLimitBuy symbol quantity price]
    else if strStartsWith action "TP Fib" then
      [.createLimitSell symbol quantity take_profit]
    else if action = "Close-all on first TP fill" then
      [.cancelOpenOrders symbol]
    else []

/-- Retry bound of the celery task (main.py line 122). -/
def max_retries : Nat := 5

/-- Outcome of one attempt of process_order as far as retry handling
is concerned: the validation check returned False, an exchange call
raised, or the attempt ran to the end. -/
inductive OrderOutcome
  | validationFail
  | exchangeError
  | success
deriving DecidableEq

/-- Result of one attempt at the task level. -/
inductive TaskResult
  | completed
  | retried (countdown attempt : Nat)
  | failed
deriving DecidableEq

/-- Retry behaviour of process_order (main.py lines 129-146 with the
celery decorator of line 122): a validation failure returns from the
task (no retry); an exchange error reaches the except branch, which
calls self.retry with countdown 60 - celery re-enqueues with the
attempt count incremented while fewer than max_retries retries have
happened, and otherwise raises MaxRetriesExceededError, failing the
task for good. -/
def process_order_step (retries : Nat) (o : OrderOutcome) : TaskResult :=
  match o with
  | .validationFail => .completed
  | .success => .completed
  | .exchangeError =>
    if retries < max_retries then .retried 60 (retries + 1) else .failed

/-- One row of the users table as read by get_subscribed_users
(main.py lines 31-41). -/
structure UserRow where
  user_id : String
  api_key_enc : String
  api_secret_enc : String
  exchange : String
  initial_capital : ℚ
  preferred_pair : String

/-- Outcome of one get_current_price call (main.py lines 63-80): a
price, an unavailable price (fetch_ticker failed inside the try, which
returns None, a falsy value the loop skips), or an exception escaping
the call - the client construction getattr(ccxt, exchange) at line 69
and the float conversion of a cached value at line 67 both run outside
the try, so an exchange string that is not a ccxt attribute or an
unparseable cached value raises out of the webhook loop body. -/
inductive PriceResult
  | avail (price : ℚ)
  | unavailable
  | raised
deriving DecidableEq

/-- Environment of the webhook fanout: decrypt_key results per stored
ciphertext (none models a decryption failure) and get_current_price
outcomes per exchange and symbol. -/
structure FanoutEnv where
  decrypt : String → Option String
  price : String → String → PriceResult

/-- Ratio-projected entry price (main.py lines 185-186):
base_price * (current_price / base_price). -/
def adjusted_price (base_price current_price : ℚ) : ℚ :=
  base_price * (current_price / base_price)

/-- Ratio-projected take profit (main.py lines 185 and 187):
base_take_profit * (current_price / base_price). -/
def adjusted_take_profit (base_take_profit base_price current_price : ℚ) : ℚ :=
  base_take_profit * (current_price / base_price)

/-- The celery job enqueued by apply_async (main.py lines 195-198). -/
structure ExecutionJob where
  user_id : String
  exchange : String
  api_key : String
  api_secret : String
  symbol : String
  action : String
  price : ℚ
  take_profit : ℚ
  quantity : ℚ
  queue : String
deriving DecidableEq

/-- Result of the loop body of the webhook for one user: the user was
skipped by a continue, a job was enqueued, or an exception escaped the
body.  Each carries the number of get_current_price calls made (0 or 1). -/
inductive UserStep
  | skip (lookups : Nat)
  | job (j : ExecutionJob) (lookups : Nat)
  | exn (lookups : Nat)
deriving DecidableEq

/-- Loop body of the webhook for one user (main.py lines 170-199):
decrypt both keys (falsy result - None or empty - skips before any
price lookup), map the symbol, look the price up (an unavailable price
skips; a raising lookup escapes the loop body), project by the price
ratio (ZeroDivisionError when the base price is 0), compute the
quantity, skip unless it is positive, otherwise enqueue the job on the
lane selected by the action prefix. -/
def process_user (env : FanoutEnv) (base_symbol : String)
    (base_price base_take_profit : ℚ) (action : String) (u : UserRow) : UserStep :=
  match env.decrypt u.api_key_enc, env.decrypt u.api_secret_enc with
  | some api_key, some api_secret =>
    if api_key = "" ∨ api_secret = "" then .skip 0
    else
      let symbol := map_symbol u.exchange u.preferred_pair base_symbol
      match env.price u.exchange symbol with
      | .raised => .exn 1
      | .unavailable => .skip 1
      | .avail p =>
        if p = 0 then .skip 1
        else if base_price = 0 then .exn 1
        else
          let q := calculate_quantity u.initial_capital p allocDefault
          if q ≤ 0 then .skip 1
          else
            .job
              { user_id := u.user_id
                exchange := u.exchange
                api_key := api_key
                api_secret := api_secret
                symbol := symbol
                action := action
                price := adjusted_price base_price p
                take_profit := adjusted_take_profit base_take_profit base_price p
                quantity := q
                queue := if strStartsWith action "TP Fib" then "take_profit" else "default" }
              1
  | _, _ => .skip 0

/-- Result of the whole fanout loop: the jobs enqueued and the price
lookups made, tagged by whether an exception escaped the loop.  Jobs
enqueued before an escaping exception remain enqueued. -/
inductive FanoutOutcome
  | ok (jobs : List ExecutionJob) (lookups : Nat)
  | exn (jobs : List ExecutionJob) (lookups : Nat)
deriving DecidableEq

/-- The fanout loop of the webhook (main.py lines 170-199) over the
subscribed users in order. -/
def fanout (env : FanoutEnv) (base_symbol : String)
    (base_price base_take_profit : ℚ) (action : String) :
    List UserRow → FanoutOutcome
  | [] => .ok [] 0
  | u :: rest =>
    match process_user env base_symbol base_price base_take_profit action u with
    | .skip n =>
      match fanout env base_symbol base_price base_take_profit action rest with
      | .ok js m => .ok js (n + m)
      | .exn js m => .exn js (n + m)
    | .job j n =>
      match fanout env base_symbol base_price base_take_profit action rest with
      | .ok js m => .ok (j :: js) (n + m)
      | .exn js m => .exn (j :: js) (n + m)
    | .exn n => .exn [] n

/-- Jobs enqueued by a fanout outcome. -/
def FanoutOutcome.jobs : FanoutOutcome → List ExecutionJob
  | .ok js _ => js
  | .exn js _ => js

/-- Price lookups made by a fanout outcome. -/
def FanoutOutcome.lookups : FanoutOutcome → Nat
  | .ok _ n => n
  | .exn _ n => n

/-- Whether the fanout loop finished without an escaping exception. -/
def FanoutOutcome.isOk : FanoutOutcome → Bool
  | .ok _ _ => true
  | .exn _ _ => false

/-- The JSON body of an inbound webhook request: each field is some
value when present and parseable as the type the code converts it to,
none otherwise. -/
structure RawData where
  symbol : Option String
  price : Option ℚ
  takeProfit : Option ℚ
  action : Option String

/-- HTTP-level outcome class of the webhook route. -/
inductive WebhookStatus
  | badSymbol
  | noUsers
  | processed
  | serverError
deriving DecidableEq

/-- Observable outcome of one webhook call: status class, jobs
enqueued, price lookups made. -/
structure WebhookOutcome where
  status : WebhookStatus
  jobs : List ExecutionJob
  lookups : Nat
deriving DecidableEq

/-- Whether both stored keys of a user decrypt to truthy strings, the
check of main.py lines 172-176. -/
def decrypt_ok (env : FanoutEnv) (u : UserRow) : Bool :=
  match env.decrypt u.api_key_enc, env.decrypt u.api_secret_enc with
  | some k, some s => if k = "" ∨ s = "" then false else true
  | _, _ => false

/-- The webhook route (main.py lines 151-203): reject a missing body or
a symbol other than BTCUSDT with a 400; converting a missing price or
takeProfit raises before users are loaded (500 from the outer except);
an empty user set returns a 400 before the action string is touched; a
missing action raises AttributeError at line 179 on the first user that
survives decryption - before any price lookup or enqueue - but when
every user is skipped at decryption the loop completes and the route
returns 200 with nothing enqueued; otherwise run the fanout loop, a 500
when an exception escapes it. -/
def webhook (env : FanoutEnv) (users : List UserRow)
    (data : Option RawData) : WebhookOutcome :=
  match data with
  | none => ⟨.badSymbol, [], 0⟩
  | some d =>
    if d.symbol ≠ some "BTCUSDT" then ⟨.badSymbol, [], 0⟩
    else
      match d.price, d.takeProfit with
      | some bp, some btp =>
        if users.isEmpty then ⟨.noUsers, [], 0⟩
        else
          match d.action with
          | none =>
            if users.any (fun u => decrypt_ok env u) then ⟨.serverError, [], 0⟩
            else ⟨.processed, [], 0⟩
          | some action =>
            match fanout env "BTCUSDT" bp btp action users with
            | .ok js n => ⟨.processed, js, n⟩
            | .exn js n => ⟨.serverError, js, n⟩
      | _, _ => ⟨.serverError, [], 0⟩

/-- All per-user steps of the fanout succeeding for one user: both keys
decrypt to truthy strings, the price lookup returns a truthy price, and
the computed quantity is positive. -/
def user_success (env : FanoutEnv) (base_symbol : String) (u : UserRow) : Bool :=
  match env.decrypt u.api_key_enc, env.decrypt u.api_secret_enc with
  | some api_key, some api_secret =>
    if api_key = "" ∨ api_secret = "" then false
    else
      match env.price u.exchange (map_symbol u.exchange u.preferred_pair base_symbol) with
      | .raised => false
      | .unavailable => false
      | .avail p =>
        if p = 0 then false
        else if calculate_quantity u.initial_capital p allocDefault ≤ 0 then false
        else true
  | _, _ => false

/-- Whether the price lookup for a user raises out of the loop body. -/
def price_raises (env : FanoutEnv) (base_symbol : String) (u : UserRow) : Bool :=
  match env.price u.exchange (map_symbol u.exchange u.preferred_pair base_symbol) with
  | .raised => true
  | _ => false

/-- The job, if any, that the fanout loop body enqueues for one user. -/
def user_job (env : FanoutEnv) (base_symbol : String)
    (base_price base_take_profit : ℚ) (action : String) (u : UserRow) :
    Option ExecutionJob :=
  match process_user env base_symbol base_price base_take_profit action u with
  | .job j _ => some j
  | _ => none

/-- Exchange environment in which every check of validate_order can
pass: the client constructs, markets load, every symbol has minimum 1,
balances are large, the close succeeds. -/
def envOkSmall : ExchangeEnv :=
  ⟨true, true, fun _ => some (some 1), true, fun _ => some 1000000, true⟩

/-- Exchange environment whose exchange string is not a ccxt attribute:
the client construction before the try block raises. -/
def envBadExchange : ExchangeEnv :=
  ⟨false, true, fun _ => some (some 1), true, fun _ => some 1000000, true⟩

/-- Fanout environment in which decryption is the identity and every
price lookup returns 50000. -/
def envW : FanoutEnv :=
  ⟨fun s => some s, fun _ _ => .avail 50000⟩

/-- Fanout environment in which decryption is the identity, the price
lookup for the coinlion exchange raises (coinlion is not a ccxt
attribute, so getattr raises before the try of get_current_price) and
every other lookup returns 50000. -/
def envR : FanoutEnv :=
  ⟨fun s => some s,
    fun ex _ => if ex = "coinlion" then .raised else .avail 50000⟩

/-- A subscribed user whose stored exchange string raises at client
construction inside get_current_price. -/
def userRaise : UserRow :=
  ⟨"u3", "k3", "s3", "coinlion", 1000, "BTCUSDC"⟩

/-- A subscribed binance user with capital 1000. -/
def userW : UserRow :=
  ⟨"u1", "k1", "s1", "binance", 1000, "BTCUSDT"⟩

/-- A user whose stored key decrypts to the empty string, which the
webhook treats as a decryption failure and skips. -/
def userBad : UserRow :=
  ⟨"u2", "", "s2", "binance", 1000, "BTCUSDT"⟩

/-- The job the webhook enqueues for userW in envW on a Buy Fib 1
signal at base price 50000 and base take profit 55000. -/
def jobW : ExecutionJob :=
  ⟨"u1", "binance", "k1", "s1", "BTCUSDT", "Buy Fib 1", 50000, 55000,
    1/500, "default"⟩

lemma splitOnChar_eq_of_not_mem (sep : Char) :
    ∀ l : List Char, sep ∉ l → splitOnChar sep l = [l] := by
  intro l
  induction l with
  | nil => intro _; rfl
  | cons c cs ih =>
    intro h
    have hc : ¬ (c = sep) := fun hEq => h (hEq ▸ List.mem_cons_self c cs)
    have hcs : sep ∉ cs := fun hm => h (List.mem_cons_of_mem c hm)
    simp [splitOnChar, hc, ih hcs]

lemma pySplit_no_slash (s : String) (h : '/' ∉ s.data) : pySplit s '/' = [s] := by
  unfold pySplit
  rw [splitOnChar_eq_of_not_mem _ _ h]
  rfl

/-- Claim C1 counterexample: on capital 1000, allocation 1/10, price
50000 the computed quantity is 1/500 (0.002), not the claimed exchange
minimum 1/5000 (0.0002); the raw rounded value stands, no flooring
occurs, and the hardcoded floor is 1/10000 anyway. -/
theorem claim_C1_counterexample :
    calculate_quantity 1000 50000 allocDefault = 1/500 ∧
    calculate_quantity 1000 50000 allocDefault ≠ 1/5000 := by
  constructor <;>
    norm_num [calculate_quantity, allocDefault, binanceMin, round8,
      roundHalfEven, max_def]

/-- Claim C1 amended: the computed quantity is
max(round(capital * alloc / price, 8), 0.0001) with the exchange
minimum hardcoded to 0.0001 (not a per-exchange parameter); on the
claimed inputs the result is the raw rounded value 0.002, which exceeds
the floor; the floor does bind for capital 1, where the raw value
0.000002 is lifted to 0.0001. -/
theorem claim_C1 : ∀ capital price : ℚ, price ≠ 0 →
    calculate_quantity capital price allocDefault =
      max (round8 (capital * allocDefault / price)) binanceMin ∧
    calculate_quantity 1000 50000 allocDefault = 1/500 ∧
    calculate_quantity 1 50000 allocDefault = 1/10000 := by
  intro capital price h
  refine ⟨?_, ?_, ?_⟩
  · unfold calculate_quantity
    rw [if_neg h]
  · norm_num [calculate_quantity, allocDefault, binanceMin, round8,
      roundHalfEven, max_def]
  · norm_num [calculate_quantity, allocDefault, binanceMin, round8,
      roundHalfEven, max_def]

theorem claim_C1_witness :
    (50000 : ℚ) ≠ 0 ∧
    calculate_quantity 1000 50000 allocDefault =
      max (round8 (1000 * allocDefault / 50000)) binanceMin :=
  ⟨by norm_num, (claim_C1 1000 50000 (by norm_num)).1⟩

/-- Claim C2: with a nonzero base price, the ratio projection returns
adjusted_price equal to the live price and adjusted_take_profit equal
to the base take profit scaled by the ratio; on base price 100, base
take profit 110 and live price 105 the projections are 105 and 115.5. -/
theorem claim_C2 : ∀ P0 TP0 P1 : ℚ, P0 ≠ 0 →
    adjusted_price P0 P1 = P1 ∧
    adjusted_take_profit TP0 P0 P1 = TP0 * (P1 / P0) ∧
    adjusted_price 100 105 = 105 ∧
    adjusted_take_profit 110 100 105 = 231/2 := by
  intro P0 TP0 P1 h
  refine ⟨?_, rfl, ?_, ?_⟩
  · unfold adjusted_price
    field_simp
  · norm_num [adjusted_price]
  · norm_num [adjusted_take_profit]

theorem claim_C2_witness :
    (100 : ℚ) ≠ 0 ∧ adjusted_price 100 105 = 105 :=
  ⟨by norm_num, (claim_C2 100 110 105 (by norm_num)).1⟩

/-- Claim C5: a validation failure completes the task with no retry; an
exchange error while fewer than max_retries (5) retries have happened
re-enqueues with countdown 60 and the attempt count incremented; once
the bound is reached the task fails for good - no infinite retry. -/
theorem claim_C5 : ∀ retries : Nat,
    process_order_step retries .validationFail = .completed ∧
    (retries < max_retries →
      process_order_step retries .exchangeError = .retried 60 (retries + 1)) ∧
    (max_retries ≤ retries →
      process_order_step retries .exchangeError = .failed) := by
  intro retries
  refine ⟨rfl, ?_, ?_⟩
  · intro h
    simp [process_order_step, h]
  · intro h
    simp [process_order_step, Nat.not_lt.mpr h]

theorem claim_C5_witness :
    process_order_step 0 .validationFail = .completed ∧
    process_order_step 0 .exchangeError = .retried 60 1 ∧
    process_order_step 5 .exchangeError = .failed :=
  ⟨(claim_C5 0).1, (claim_C5 0).2.1 (by decide), (claim_C5 5).2.2 (by decide)⟩

lemma tp_not_buy (action : String) (h : strStartsWith action "TP Fib" = true) :
    strStartsWith action "Buy Fib" = false := by
  unfold strStartsWith at h ⊢
  have h1 : "TP Fib".data = ['T', 'P', ' ', 'F', 'i', 'b'] := rfl
  have h2 : "Buy Fib".data = ['B', 'u', 'y', ' ', 'F', 'i', 'b'] := rfl
  rw [h1] at h
  rw [h2]
  cases hd : action.data with
  | nil => rw [hd] at h; simp [List.isPrefixOf] at h
  | cons c cs =>
    rw [hd] at h
    simp [List.isPrefixOf] at h ⊢
    intro hc
    rw [← hc] at h
    exact absurd h.1 (by decide)

/-- Claim C10 counterexample: validate_order is not total over its
error branch - when the stored exchange string is not a ccxt attribute
the client construction before the try block raises to the caller, so
the call neither completes nor returns False, even for a Buy-prefixed
action on a slashless symbol. -/
theorem claim_C10_counterexample :
    validate_order envBadExchange "BTCUSDT" 2 50000 "Buy Fib 1" = none ∧
    validate_order envBadExchange "BTCUSDT" 2 50000 "Buy Fib 1" ≠
      some false := by
  refine ⟨by decide, by decide⟩

/-- Claim C10 amended: exceptions inside the try block of
validate_order are mapped to False, but the function can still raise:
the client construction precedes the try and the finally-close follows
the except, and either raises to the caller.  When both succeed,
every try-body exception yields False, and any Buy-prefixed action on
a symbol without a slash separator lands in the split-index error, so
validation returns False; the symbols the webhook passes, produced by
map_symbol from base symbol BTCUSDT, never contain a slash. -/
theorem claim_C10 : ∀ (env : ExchangeEnv) (symbol : String) (q p : ℚ)
    (action : String),
    (env.client_ok = true → env.close_ok = true →
      validate_order_body env symbol q p action = none →
      validate_order env symbol q p action = some false) ∧
    (env.client_ok = true → env.close_ok = true →
      strStartsWith action "Buy" = true → '/' ∉ symbol.data →
      validate_order env symbol q p action = some false) ∧
    ∀ exchange preferred_pair : String,
      '/' ∉ (map_symbol exchange preferred_pair "BTCUSDT").data := by
  intro env symbol q p action
  refine ⟨?_, ?_, ?_⟩
  · intro hC hX h
    simp [validate_order, hC, hX, h]
  · intro hC hX hB hS
    have hsplit : pySplit symbol '/' = [symbol] := pySplit_no_slash symbol hS
    cases hL : env.load_markets_ok with
    | false => simp [validate_order, validate_order_body, hC, hX, hL]
    | true =>
      cases hM : env.min_amount symbol with
      | none => simp [validate_order, validate_order_body, hC, hX, hL, hM]
      | some mo =>
        cases mo with
        | none => simp [validate_order, validate_order_body, hC, hX, hL, hM]
        | some m =>
          by_cases hq : q < m
          · simp [validate_order, validate_order_body, hC, hX, hL, hM, hq]
          · cases hF : env.fetch_balance_ok with
            | false =>
              simp [validate_order, validate_order_body, hC, hX, hL, hM, hq, hF]
            | true =>
              simp [validate_order, validate_order_body, hC, hX, hL, hM, hq, hF,
                hB, hsplit]
  · intro exchange preferred_pair
    unfold map_symbol
    by_cases hc : (exchange_pairs exchange).contains preferred_pair
    · rw [if_pos hc]
      have hmem : preferred_pair ∈ exchange_pairs exchange := by
        simpa using hc
      unfold exchange_pairs at hmem
      repeat' split at hmem
      all_goals fin_cases hmem <;> decide
    · rw [if_neg hc]
      decide

theorem claim_C10_witness :
    validate_order envOkSmall "BTCUSDT" 2 50000 "Buy Fib 1" = some false :=
  (claim_C10 envOkSmall "BTCUSDT" 2 50000 "Buy Fib 1").2.1 rfl rfl (by decide)
    (by decide)

/-- Claim C3 counterexample: the same take-profit job executed twice
issues one limit-sell call each time - two in total, no cancels, and
the second execution is not a no-op - because process_order keeps no
current_tp state and performs no idempotence check. -/
theorem claim_C3_counterexample :
    process_order_calls envOkSmall "BTCUSDT" "TP Fib 1" 50000 55000 2 =
      [.createLimitSell "BTCUSDT" 2 55000] ∧
    process_order_calls envOkSmall "BTCUSDT" "TP Fib 1" 50000 55000 2 ++
        process_order_calls envOkSmall "BTCUSDT" "TP Fib 1" 50000 55000 2 =
      [.createLimitSell "BTCUSDT" 2 55000, .createLimitSell "BTCUSDT" 2 55000] ∧
    process_order_calls envOkSmall "BTCUSDT" "TP Fib 1" 50000 55000 2 ≠ [] := by
  refine ⟨by decide, by decide, by decide⟩

/-- Claim C3 amended: there is no stored current_tp and no idempotence
check; every TP Fib job that passes validation issues exactly one
limit-sell call at the take-profit price, and executing the identical
job twice issues two such calls. -/
theorem claim_C3 : ∀ (env : ExchangeEnv) (symbol action : String)
    (price tp q : ℚ),
    strStartsWith action "TP Fib" = true →
    validate_order env symbol q price action = some true →
    process_order_calls env symbol action price tp q =
      [.createLimitSell symbol q tp] ∧
    process_order_calls env symbol action price tp q ++
        process_order_calls env symbol action price tp q =
      [.createLimitSell symbol q tp, .createLimitSell symbol q tp] := by
  intro env symbol action price tp q hTP hval
  have hBuy := tp_not_buy action hTP
  have hone : process_order_calls env symbol action price tp q =
      [.createLimitSell symbol q tp] := by
    unfold process_order_calls
    simp [hval, hTP, hBuy]
  exact ⟨hone, by rw [hone]; rfl⟩

theorem claim_C3_witness :
    process_order_calls envOkSmall "BTCUSDT" "TP Fib 1" 50000 55000 2 =
      [.createLimitSell "BTCUSDT" 2 55000] :=
  (claim_C3 envOkSmall "BTCUSDT" "TP Fib 1" 50000 55000 2 (by decide)
    (by decide)).1

lemma calc_qty_1000_50000 :
    calculate_quantity 1000 50000 allocDefault = 1/500 := by
  norm_num [calculate_quantity, allocDefault, binanceMin, round8,
    roundHalfEven, max_def]

lemma map_symbol_userW : map_symbol "binance" "BTCUSDT" "BTCUSDT" = "BTCUSDT" := by
  decide

lemma process_user_envW :
    process_user envW "BTCUSDT" 50000 55000 "Buy Fib 1" userW = .job jobW 1 := by
  unfold process_user envW userW
  norm_num [map_symbol_userW, calc_qty_1000_50000, adjusted_price,
    adjusted_take_profit, jobW, strStartsWith]
  simp +decide

lemma fanout_envW :
    fanout envW "BTCUSDT" 50000 55000 "Buy Fib 1" [userW] = .ok [jobW] 1 := by
  simp [fanout, process_user_envW]

lemma webhook_envW :
    webhook envW [userW]
      (some ⟨some "BTCUSDT", some 50000, some 55000, some "Buy Fib 1"⟩) =
      ⟨.processed, [jobW], 1⟩ := by
  simp [webhook, fanout_envW]

/-- Claim C4 counterexample: a close-all execution only cancels open
orders - the code stores no trade_active flag - and a subsequent
Buy Fib 1 signal for the same scope still enqueues a job (one job for
the one eligible subscriber, not zero). -/
theorem claim_C4_counterexample :
    process_order_calls envOkSmall "BTCUSDT" "Close-all on first TP fill"
      50000 55000 2 = [.cancelOpenOrders "BTCUSDT"] ∧
    (webhook envW [userW]
      (some ⟨some "BTCUSDT", some 50000, some 55000, some "Buy Fib 1"⟩)).jobs =
      [jobW] := by
  constructor
  · decide
  · rw [webhook_envW]

/-- Claim C4 amended: close-all execution cancels the open orders of
the symbol and nothing else; no trade_active flag exists anywhere in
the pipeline, and fanout treats every subsequent signal independently
of any earlier close-all, so a later Buy Fib 1 signal enqueues jobs as
usual. -/
theorem claim_C4 : ∀ (env : ExchangeEnv) (symbol : String) (price tp q : ℚ),
    validate_order env symbol q price "Close-all on first TP fill" = some true →
    process_order_calls env symbol "Close-all on first TP fill" price tp q =
      [.cancelOpenOrders symbol] ∧
    (webhook envW [userW]
      (some ⟨some "BTCUSDT", some 50000, some 55000, some "Buy Fib 1"⟩)).jobs.length
      = 1 := by
  intro env symbol price tp q hval
  constructor
  · unfold process_order_calls
    have hb : strStartsWith "Close-all on first TP fill" "Buy Fib" = false := by
      decide
    have ht : strStartsWith "Close-all on first TP fill" "TP Fib" = false := by
      decide
    simp [hval, hb, ht]
  · rw [webhook_envW]
    rfl

theorem claim_C4_witness :
    process_order_calls envOkSmall "BTCUSDT" "Close-all on first TP fill"
      50000 55000 2 = [.cancelOpenOrders "BTCUSDT"] :=
  (claim_C4 envOkSmall "BTCUSDT" 50000 55000 2 (by decide)).1

lemma process_user_cases (env : FanoutEnv) (bs : String) (bp btp : ℚ)
    (action : String) (u : UserRow) (hbp : bp ≠ 0)
    (hnr : price_raises env bs u = false) :
    (user_success env bs u = true ∧
      ∃ j n, process_user env bs bp btp action u = .job j n) ∨
    (user_success env bs u = false ∧
      ∃ n, process_user env bs bp btp action u = .skip n) := by
  simp only [process_user, user_success]
  cases hk : env.decrypt u.api_key_enc with
  | none => exact Or.inr ⟨rfl, 0, rfl⟩
  | some k =>
    cases hs : env.decrypt u.api_secret_enc with
    | none => exact Or.inr ⟨rfl, 0, rfl⟩
    | some s =>
      dsimp only
      by_cases he : k = "" ∨ s = ""
      · rw [if_pos he, if_pos he]
        exact Or.inr ⟨rfl, 0, rfl⟩
      · rw [if_neg he, if_neg he]
        cases hp : env.price u.exchange (map_symbol u.exchange u.preferred_pair bs) with
        | raised => simp [price_raises, hp] at hnr
        | unavailable => exact Or.inr ⟨rfl, 1, rfl⟩
        | avail p =>
          dsimp only
          by_cases hp0 : p = 0
          · rw [if_pos hp0, if_pos hp0]
            exact Or.inr ⟨rfl, 1, rfl⟩
          · rw [if_neg hp0, if_neg hp0, if_neg hbp]
            by_cases hq : calculate_quantity u.initial_capital p allocDefault ≤ 0
            · rw [if_pos hq, if_pos hq]
              exact Or.inr ⟨rfl, 1, rfl⟩
            · rw [if_neg hq, if_neg hq]
              exact Or.inl ⟨rfl, _, 1, rfl⟩

lemma fanout_isOk (env : FanoutEnv) (bs : String) (bp btp : ℚ)
    (action : String) (hbp : bp ≠ 0) :
    ∀ users : List UserRow,
      (∀ u ∈ users, price_raises env bs u = false) →
      (fanout env bs bp btp action users).isOk = true := by
  intro users
  induction users with
  | nil => intro _; rfl
  | cons u rest ih =>
    intro hnr
    have hnru : price_raises env bs u = false := hnr u (List.mem_cons_self u rest)
    have hnrr : ∀ v ∈ rest, price_raises env bs v = false :=
      fun v hv => hnr v (List.mem_cons_of_mem u hv)
    cases hf : fanout env bs bp btp action rest with
    | exn js m =>
      rw [hf] at ih
      exact absurd (ih hnrr) (by simp [FanoutOutcome.isOk])
    | ok js m =>
      rcases process_user_cases env bs bp btp action u hbp hnru with
        ⟨_, j, n, hpu⟩ | ⟨_, n, hpu⟩ <;>
        simp [fanout, hpu, hf, FanoutOutcome.isOk]

lemma fanout_jobs_eq (env : FanoutEnv) (bs : String) (bp btp : ℚ)
    (action : String) (hbp : bp ≠ 0) :
    ∀ users : List UserRow,
      (∀ u ∈ users, price_raises env bs u = false) →
      (fanout env bs bp btp action users).jobs =
        users.filterMap (user_job env bs bp btp action) := by
  intro users
  induction users with
  | nil => intro _; rfl
  | cons u rest ih =>
    intro hnr
    have hnru : price_raises env bs u = false := hnr u (List.mem_cons_self u rest)
    have hnrr : ∀ v ∈ rest, price_raises env bs v = false :=
      fun v hv => hnr v (List.mem_cons_of_mem u hv)
    rcases process_user_cases env bs bp btp action u hbp hnru with
      ⟨_, j, n, hpu⟩ | ⟨_, n, hpu⟩ <;>
      cases hf : fanout env bs bp btp action rest <;>
      rw [hf] at ih <;>
      simp [fanout, hpu, hf, FanoutOutcome.jobs, user_job, List.filterMap_cons,
        ← ih hnrr]

lemma fanout_length (env : FanoutEnv) (bs : String) (bp btp : ℚ)
    (action : String) (hbp : bp ≠ 0) :
    ∀ users : List UserRow,
      (∀ u ∈ users, price_raises env bs u = false) →
      (fanout env bs bp btp action users).jobs.length =
        (users.filter (user_success env bs)).length := by
  intro users
  induction users with
  | nil => intro _; rfl
  | cons u rest ih =>
    intro hnr
    have hnru : price_raises env bs u = false := hnr u (List.mem_cons_self u rest)
    have hnrr : ∀ v ∈ rest, price_raises env bs v = false :=
      fun v hv => hnr v (List.mem_cons_of_mem u hv)
    rcases process_user_cases env bs bp btp action u hbp hnru with
      ⟨hsu, j, n, hpu⟩ | ⟨hsu, n, hpu⟩ <;>
      cases hf : fanout env bs bp btp action rest <;>
      rw [hf] at ih <;>
      simp [fanout, hpu, hf, FanoutOutcome.jobs, List.filter_cons, hsu] <;>
      simpa using ih hnrr

lemma process_user_envR_raise :
    process_user envR "BTCUSDT" 50000 55000 "Buy Fib 1" userRaise = .exn 1 := by
  decide

lemma process_user_envR_userW :
    process_user envR "BTCUSDT" 50000 55000 "Buy Fib 1" userW = .job jobW 1 := by
  unfold process_user envR userW jobW
  simp +decide [map_symbol_userW, adjusted_price, adjusted_take_profit,
    strStartsWith]
  rw [calc_qty_1000_50000]
  norm_num

lemma fanout_envR :
    fanout envR "BTCUSDT" 50000 55000 "Buy Fib 1" [userRaise, userW] =
      .exn [] 1 := by
  simp [fanout, process_user_envR_raise]

lemma fanout_envR_userW :
    fanout envR "BTCUSDT" 50000 55000 "Buy Fib 1" [userW] = .ok [jobW] 1 := by
  simp [fanout, process_user_envR_userW]

/-- Claim C6 counterexample: a subscriber whose stored exchange string
is not a ccxt attribute makes get_current_price raise before its try
block, which escapes the loop into the outer except: the batch aborts
with a 500 and zero jobs, even though the next subscriber alone would
have received a job - one subscriber failure prevents enqueueing for
another and raises out of the batch. -/
theorem claim_C6_counterexample :
    (fanout envR "BTCUSDT" 50000 55000 "Buy Fib 1" [userRaise, userW]).isOk
      = false ∧
    (fanout envR "BTCUSDT" 50000 55000 "Buy Fib 1" [userRaise, userW]).jobs
      = [] ∧
    (fanout envR "BTCUSDT" 50000 55000 "Buy Fib 1" [userW]).jobs.length = 1 ∧
    (webhook envR [userRaise, userW]
      (some ⟨some "BTCUSDT", some 50000, some 55000, some "Buy Fib 1"⟩)).status
      = .serverError := by
  refine ⟨?_, ?_, ?_, ?_⟩
  · rw [fanout_envR]
    rfl
  · rw [fanout_envR]
    rfl
  · rw [fanout_envR_userW]
    rfl
  · simp [webhook, fanout_envR]

/-- Claim C6 amended: with a nonzero base price and no subscriber whose
price lookup raises (the client construction and the cached-value parse
of get_current_price run outside its try, so an exchange string that is
not a ccxt attribute raises out of the loop and aborts the batch), the
fanout loop lets no exception escape, enqueues exactly one job per user
for which key decryption, the price lookup and the quantity projection
all succeed, and processes disjoint user segments independently. -/
theorem claim_C6 : ∀ (env : FanoutEnv) (bs : String) (bp btp : ℚ)
    (action : String) (users : List UserRow), bp ≠ 0 →
    (∀ u ∈ users, price_raises env bs u = false) →
    (fanout env bs bp btp action users).isOk = true ∧
    (fanout env bs bp btp action users).jobs.length =
      (users.filter (user_success env bs)).length ∧
    ∀ us1 us2 : List UserRow,
      (∀ u ∈ us1 ++ us2, price_raises env bs u = false) →
      (fanout env bs bp btp action (us1 ++ us2)).jobs =
        (fanout env bs bp btp action us1).jobs ++
          (fanout env bs bp btp action us2).jobs := by
  intro env bs bp btp action users hbp hnr
  refine ⟨fanout_isOk env bs bp btp action hbp users hnr,
    fanout_length env bs bp btp action hbp users hnr, ?_⟩
  intro us1 us2 h12
  have h1 : ∀ u ∈ us1, price_raises env bs u = false :=
    fun u hu => h12 u (List.mem_append_left us2 hu)
  have h2 : ∀ u ∈ us2, price_raises env bs u = false :=
    fun u hu => h12 u (List.mem_append_right us1 hu)
  rw [fanout_jobs_eq env bs bp btp action hbp _ h12,
    fanout_jobs_eq env bs bp btp action hbp _ h1,
    fanout_jobs_eq env bs bp btp action hbp _ h2, List.filterMap_append]

theorem claim_C6_witness :
    (fanout envW "BTCUSDT" 50000 55000 "Buy Fib 1" [userW, userBad]).isOk = true ∧
    (fanout envW "BTCUSDT" 50000 55000 "Buy Fib 1" [userW, userBad]).jobs.length =
      ([userW, userBad].filter (user_success envW "BTCUSDT")).length :=
  ⟨(claim_C6 envW "BTCUSDT" 50000 55000 "Buy Fib 1" [userW, userBad]
      (by norm_num) (by intro u hu; fin_cases hu <;> decide)).1,
    (claim_C6 envW "BTCUSDT" 50000 55000 "Buy Fib 1" [userW, userBad]
      (by norm_num) (by intro u hu; fin_cases hu <;> decide)).2.1⟩

lemma process_user_quantity_pos (env : FanoutEnv) (bs : String) (bp btp : ℚ)
    (action : String) (u : UserRow) (j : ExecutionJob) (n : Nat)
    (h : process_user env bs bp btp action u = .job j n) : 0 < j.quantity := by
  simp only [process_user] at h
  repeat' split at h
  all_goals cases h
  all_goals exact lt_of_not_le (by assumption)

/-- Claim C9: every job the fanout loop enqueues carries a strictly
positive quantity; users whose computed quantity is not positive are
skipped before enqueueing. -/
theorem claim_C9 : ∀ (env : FanoutEnv) (bs : String) (bp btp : ℚ)
    (action : String) (users : List UserRow) (j : ExecutionJob),
    j ∈ (fanout env bs bp btp action users).jobs → 0 < j.quantity := by
  intro env bs bp btp action users j
  induction users with
  | nil => intro h; exact absurd h (by simp [fanout, FanoutOutcome.jobs])
  | cons u rest ih =>
    intro hmem
    cases hpu : process_user env bs bp btp action u with
    | skip n =>
      cases hf : fanout env bs bp btp action rest <;>
        rw [hf] at ih <;>
        simp [fanout, hpu, hf, FanoutOutcome.jobs] at hmem <;>
        exact ih (by simpa [FanoutOutcome.jobs] using hmem)
    | job j0 n =>
      cases hf : fanout env bs bp btp action rest <;>
        rw [hf] at ih <;>
        simp [fanout, hpu, hf, FanoutOutcome.jobs] at hmem <;>
        rcases hmem with h | h
      · exact h ▸ process_user_quantity_pos env bs bp btp action u j0 n hpu
      · exact ih (by simpa [FanoutOutcome.jobs] using h)
      · exact h ▸ process_user_quantity_pos env bs bp btp action u j0 n hpu
      · exact ih (by simpa [FanoutOutcome.jobs] using h)
    | exn n =>
      simp [fanout, hpu, FanoutOutcome.jobs] at hmem

theorem claim_C9_witness :
    jobW ∈ (fanout envW "BTCUSDT" 50000 55000 "Buy Fib 1" [userW]).jobs ∧
    0 < jobW.quantity := by
  have hmem : jobW ∈ (fanout envW "BTCUSDT" 50000 55000 "Buy Fib 1" [userW]).jobs := by
    rw [fanout_envW]
    simp [FanoutOutcome.jobs]
  exact ⟨hmem, claim_C9 envW "BTCUSDT" 50000 55000 "Buy Fib 1" [userW] jobW hmem⟩

lemma process_user_envW_neg :
    process_user envW "BTCUSDT" (-50000) (-55000) "Buy Fib 1" userW =
      .job jobW 1 := by
  unfold process_user envW userW
  norm_num [map_symbol_userW, calc_qty_1000_50000, adjusted_price,
    adjusted_take_profit, jobW, strStartsWith]
  simp +decide

lemma webhook_envW_neg :
    webhook envW [userW]
      (some ⟨some "BTCUSDT", some (-50000), some (-55000), some "Buy Fib 1"⟩) =
      ⟨.processed, [jobW], 1⟩ := by
  simp [webhook, fanout, process_user_envW_neg]

/-- Claim C7 counterexample: a signal whose price and take profit are
negative (hence not positive finite numbers) is not rejected at
ingress: the webhook proceeds through fanout, performs a price lookup
and enqueues a job. -/
theorem claim_C7_counterexample :
    (webhook envW [userW]
      (some ⟨some "BTCUSDT", some (-50000), some (-55000), some "Buy Fib 1"⟩)).status
      = .processed ∧
    (webhook envW [userW]
      (some ⟨some "BTCUSDT", some (-50000), some (-55000), some "Buy Fib 1"⟩)).jobs
      = [jobW] ∧
    (webhook envW [userW]
      (some ⟨some "BTCUSDT", some (-50000), some (-55000), some "Buy Fib 1"⟩)).lookups
      = 1 := by
  rw [webhook_envW_neg]
  exact ⟨rfl, rfl, rfl⟩

/-- Claim C7 amended: ingress rejects a missing body or a symbol other
than BTCUSDT before any processing, and a missing (or unparseable)
price or takeProfit field aborts with a server error before users are
loaded; a missing action raises on the first user that survives
decryption - still before any price lookup or enqueue - but when every
user fails decryption the loop completes and the route answers 200 with
nothing enqueued; the sign of price and take_profit is never checked,
so non-positive values proceed into fanout. -/
theorem claim_C7 : ∀ (env : FanoutEnv) (users : List UserRow)
    (sym : Option String) (pr tpf : Option ℚ) (act : Option String),
    webhook env users none = ⟨.badSymbol, [], 0⟩ ∧
    (sym ≠ some "BTCUSDT" →
      webhook env users (some ⟨sym, pr, tpf, act⟩) = ⟨.badSymbol, [], 0⟩) ∧
    webhook env users (some ⟨some "BTCUSDT", none, tpf, act⟩) =
      ⟨.serverError, [], 0⟩ ∧
    (∀ bp : ℚ, webhook env users (some ⟨some "BTCUSDT", some bp, none, act⟩) =
      ⟨.serverError, [], 0⟩) ∧
    (∀ (bp btp : ℚ) (u : UserRow) (rest : List UserRow),
      (u :: rest).any (fun v => decrypt_ok env v) = true →
      webhook env (u :: rest)
        (some ⟨some "BTCUSDT", some bp, some btp, none⟩) =
      ⟨.serverError, [], 0⟩) ∧
    (∀ (bp btp : ℚ) (u : UserRow) (rest : List UserRow),
      (u :: rest).any (fun v => decrypt_ok env v) = false →
      webhook env (u :: rest)
        (some ⟨some "BTCUSDT", some bp, some btp, none⟩) =
      ⟨.processed, [], 0⟩) := by
  intro env users sym pr tpf act
  refine ⟨rfl, ?_, ?_, ?_, ?_, ?_⟩
  · intro h
    unfold webhook
    dsimp only
    rw [if_pos h]
  · simp [webhook]
  · intro bp
    simp [webhook]
  · intro bp btp u rest h
    simp [webhook, h]
  · intro bp btp u rest h
    simp [webhook, h]

theorem claim_C7_witness :
    webhook envW [userW]
      (some ⟨some "ETHUSDT", some 50000, some 55000, some "Buy Fib 1"⟩) =
      ⟨.badSymbol, [], 0⟩ :=
  (claim_C7 envW [userW] (some "ETHUSDT") (some 50000) (some 55000)
    (some "Buy Fib 1")).2.1 (by decide)

/-- Claim C8: a valid signal with an empty subscriber set is answered
with the explicit no-users response (a controlled 400, not an escalated
exception), no job is enqueued and no price lookup is made. -/
theorem claim_C8 : ∀ (env : FanoutEnv) (bp btp : ℚ) (act : Option String),
    webhook env [] (some ⟨some "BTCUSDT", some bp, some btp, act⟩) =
      ⟨.noUsers, [], 0⟩ := by
  intro env bp btp act
  simp [webhook]

end TradingBot
